/-
Verification development for the whiteboard repository.

Shallow embedding of the TypeScript sources into Lean 4:
  * numbers are modelled as rationals (ℚ); JS division-by-zero is modelled by
    Lean's total division (x / 0 = 0),
  * the transcendental functions used by the code (Math.cos, Math.sin,
    Math.atan2, Math.sqrt) are abstracted into a `TrigOps` record of rational
    functions; every theorem quantifies over this record, so the results hold
    for any interpretation of the trigonometric primitives,
  * JS `Map` is modelled as an association list with JS-Map semantics
    (`mapSet` replaces in place, `mapDelete` removes, `mapLookup` finds),
    JS `Set` as an insertion-ordered duplicate-free list (`jsSetOfList`),
  * JS `Array.prototype.indexOf` (which returns -1 on a miss) is modelled by
    `jsIndexOf : List String → String → Int`.

Fields of the source records that no modelled function reads (colors, stroke
style, z-index hints, text content, tool flags) are omitted from the
embedding; every field that any embedded function reads is present.
-/
import Mathlib

/-- Abstract interpretations of the numeric primitives `Math.cos`, `Math.sin`,
`Math.atan2` and `Math.sqrt` used by the sources. -/
structure TrigOps where
  cos : ℚ → ℚ
  sin : ℚ → ℚ
  atan2 : ℚ → ℚ → ℚ
  sqrt : ℚ → ℚ

/-- `Point` from whiteboard.types.ts. -/
structure Point where
  x : ℚ
  y : ℚ
deriving DecidableEq, Repr

/-- `ViewportTransform` from whiteboard.types.ts. -/
structure ViewportTransform where
  zoom : ℚ
  panX : ℚ
  panY : ℚ
deriving DecidableEq, Repr

/-- `Bounds` from whiteboard.types.ts. -/
structure Bounds where
  minX : ℚ
  minY : ℚ
  maxX : ℚ
  maxY : ℚ
  width : ℚ
  height : ℚ
deriving DecidableEq, Repr

/-- `screenToWorld` from src/lib/canvas-utils.ts. -/
def screenToWorld (screenX screenY : ℚ) (viewport : ViewportTransform) : Point :=
  { x := (screenX - viewport.panX) / viewport.zoom
    y := (screenY - viewport.panY) / viewport.zoom }

/-- `worldToScreen` from src/lib/canvas-utils.ts. -/
def worldToScreen (worldX worldY : ℚ) (viewport : ViewportTransform) : Point :=
  { x := worldX * viewport.zoom + viewport.panX
    y := worldY * viewport.zoom + viewport.panY }

/-- `rotatePoint` from src/lib/canvas-utils.ts (same formula as the copy in
src/utils/geometry.ts); `Math.cos`/`Math.sin` are taken from `trig`. -/
def rotatePoint (trig : TrigOps) (point center : Point) (angle : ℚ) : Point :=
  let c := trig.cos angle
  let s := trig.sin angle
  let dx := point.x - center.x
  let dy := point.y - center.y
  { x := dx * c - dy * s + center.x
    y := dx * s + dy * c + center.y }

/-- `ElementType` from whiteboard.types.ts. -/
inductive ElementType where
  | rectangle
  | ellipse
  | line
  | arrow
  | freedraw
  | text
deriving DecidableEq, Repr

/-- The element record: the fields of `BaseElement` that the embedded logic
reads, together with the line/arrow endpoints and the freedraw point list
used by hit testing. -/
structure Element where
  id : String
  type : ElementType
  x : ℚ
  y : ℚ
  width : ℚ
  height : ℚ
  rotation : ℚ
  locked : Bool
  isDeleted : Bool
  startX : ℚ := 0
  startY : ℚ := 0
  endX : ℚ := 0
  endY : ℚ := 0
  points : List (ℚ × ℚ) := []
deriving DecidableEq, Repr

/-- `getElementBounds` from src/utils/geometry.ts. -/
def getElementBounds (element : Element) : Bounds :=
  { minX := element.x
    minY := element.y
    maxX := element.x + element.width
    maxY := element.y + element.height
    width := element.width
    height := element.height }

/-- `getElementCenter` from src/utils/geometry.ts. -/
def getElementCenter (element : Element) : Point :=
  { x := element.x + element.width / 2
    y := element.y + element.height / 2 }

/-- `isPointInBounds` from src/utils/geometry.ts. -/
def isPointInBounds (point : Point) (bounds : Bounds) (padding : ℚ) : Bool :=
  decide (point.x ≥ bounds.minX - padding) &&
  decide (point.x ≤ bounds.maxX + padding) &&
  decide (point.y ≥ bounds.minY - padding) &&
  decide (point.y ≤ bounds.maxY + padding)

/-- `isPointInRectangle` from src/utils/geometry.ts: direct box comparison
when rotation is 0, otherwise the query point is rotated by `-rotation`
about the box center before the comparison. -/
def isPointInRectangle (trig : TrigOps) (point : Point) (element : Element)
    (padding : ℚ) : Bool :=
  let x := element.x
  let y := element.y
  let width := element.width
  let height := element.height
  if element.rotation = 0 then
    decide (point.x ≥ x - padding) && decide (point.x ≤ x + width + padding) &&
    decide (point.y ≥ y - padding) && decide (point.y ≤ y + height + padding)
  else
    let centerX := x + width / 2
    let centerY := y + height / 2
    let c := trig.cos (-element.rotation)
    let s := trig.sin (-element.rotation)
    let dx := point.x - centerX
    let dy := point.y - centerY
    let localX := dx * c - dy * s + centerX
    let localY := dx * s + dy * c + centerY
    decide (localX ≥ x - padding) && decide (localX ≤ x + width + padding) &&
    decide (localY ≥ y - padding) && decide (localY ≤ y + height + padding)

/-- `isPointInEllipse` from src/utils/geometry.ts. -/
def isPointInEllipse (point : Point) (element : Element) (padding : ℚ) : Bool :=
  let centerX := element.x + element.width / 2
  let centerY := element.y + element.height / 2
  let radiusX := element.width / 2 + padding
  let radiusY := element.height / 2 + padding
  let dx := point.x - centerX
  let dy := point.y - centerY
  decide ((dx * dx) / (radiusX * radiusX) + (dy * dy) / (radiusY * radiusY) ≤ 1)

/-- `distanceToLine` from src/utils/geometry.ts; `Math.sqrt` is taken from
`trig`. -/
def distanceToLine (trig : TrigOps) (point lineStart lineEnd : Point) : ℚ :=
  let a := point.x - lineStart.x
  let b := point.y - lineStart.y
  let c := lineEnd.x - lineStart.x
  let d := lineEnd.y - lineStart.y
  let dot := a * c + b * d
  let lenSq := c * c + d * d
  let param : ℚ := if lenSq ≠ 0 then dot / lenSq else -1
  let xx := if param < 0 then lineStart.x
            else if param > 1 then lineEnd.x
            else lineStart.x + param * c
  let yy := if param < 0 then lineStart.y
            else if param > 1 then lineEnd.y
            else lineStart.y + param * d
  let dx := point.x - xx
  let dy := point.y - yy
  trig.sqrt (dx * dx + dy * dy)

/-- `isPointNearLine` from src/utils/geometry.ts. -/
def isPointNearLine (trig : TrigOps) (point lineStart lineEnd : Point)
    (threshold : ℚ) : Bool :=
  decide (distanceToLine trig point lineStart lineEnd ≤ threshold)

/-- `isPointInFreedrawPath` from src/utils/geometry.ts. -/
def isPointInFreedrawPath (trig : TrigOps) (point : Point) (element : Element)
    (threshold : ℚ) : Bool :=
  let pts := element.points
  if pts.length < 2 then false
  else
    (List.range (pts.length - 1)).any (fun i =>
      let st : Point := { x := (pts.getD i (0, 0)).1, y := (pts.getD i (0, 0)).2 }
      let en : Point := { x := (pts.getD (i + 1) (0, 0)).1, y := (pts.getD (i + 1) (0, 0)).2 }
      isPointNearLine trig point st en threshold)

/-- `hitTestElement` from src/utils/geometry.ts: quick bounds check, then
type-specific hit detection. -/
def hitTestElement (trig : TrigOps) (point : Point) (element : Element)
    (threshold : ℚ) : Bool :=
  let bounds := getElementBounds element
  if !(isPointInBounds point bounds threshold) then false
  else
    match element.type with
    | .rectangle => isPointInRectangle trig point element threshold
    | .ellipse => isPointInEllipse point element threshold
    | .line =>
        isPointNearLine trig point
          { x := element.startX, y := element.startY }
          { x := element.endX, y := element.endY } threshold
    | .arrow =>
        isPointNearLine trig point
          { x := element.startX, y := element.startY }
          { x := element.endX, y := element.endY } threshold
    | .freedraw => isPointInFreedrawPath trig point element threshold
    | .text => isPointInRectangle trig point element 0

/-- `boundsIntersect` from src/utils/geometry.ts. -/
def boundsIntersect (a b : Bounds) : Bool :=
  !(decide (a.maxX < b.minX) || decide (a.minX > b.maxX) ||
    decide (a.maxY < b.minY) || decide (a.minY > b.maxY))

/-- JS `Map.prototype.set` on an association list: replace in place when the
key is present, append otherwise. -/
def mapSet (m : List (String × Element)) (k : String) (v : Element) :
    List (String × Element) :=
  if m.any (fun p => p.1 = k) then
    m.map (fun p => if p.1 = k then (k, v) else p)
  else
    m ++ [(k, v)]

/-- JS `Map.prototype.delete` on an association list. -/
def mapDelete (m : List (String × Element)) (k : String) :
    List (String × Element) :=
  m.filter (fun p => p.1 ≠ k)

/-- JS `Map.prototype.get` on an association list. -/
def mapLookup (m : List (String × Element)) (k : String) : Option Element :=
  (m.find? (fun p => p.1 = k)).map (fun p => p.2)

/-- Key list of an association list (the JS `Map` key set, in order). -/
def mapKeys (m : List (String × Element)) : List String :=
  m.map (fun p => p.1)

/-- JS `Set.prototype.add` on an insertion-ordered duplicate-free list. -/
def jsSetAdd (l : List String) (x : String) : List String :=
  if l.contains x then l else l ++ [x]

/-- JS `new Set(array)`: dedup keeping first occurrences. -/
def jsSetOfList (l : List String) : List String :=
  l.foldl jsSetAdd []

/-- JS `Array.prototype.indexOf`: index of the first occurrence, -1 when
absent. -/
def jsIndexOf : List String → String → Int
  | [], _ => -1
  | a :: t, x =>
      if a = x then 0
      else
        let r := jsIndexOf t x
        if r = -1 then -1 else r + 1

/-- The store state: the fields of `AppState` that the embedded mutations and
the claims touch (viewport, element map, z-order list, selection set, hover
id). -/
structure StoreState where
  viewport : ViewportTransform
  elements : List (String × Element)
  elementOrder : List String
  selectedElementIds : List String
  hoveredElementId : Option String
deriving DecidableEq, Repr

/-- `DEFAULT_VIEWPORT` from src/stores/whiteboardStore.ts. -/
def DEFAULT_VIEWPORT : ViewportTransform := { zoom := 1, panX := 0, panY := 0 }

/-- The initial store state from src/stores/whiteboardStore.ts. -/
def initialState : StoreState :=
  { viewport := DEFAULT_VIEWPORT
    elements := []
    elementOrder := []
    selectedElementIds := []
    hoveredElementId := none }

/-- A `Partial<WhiteboardElement>` restricted to the fields the embedded call
sites write (x, y, width, height, rotation). -/
structure ElementUpdates where
  x : Option ℚ := none
  y : Option ℚ := none
  width : Option ℚ := none
  height : Option ℚ := none
  rotation : Option ℚ := none
deriving DecidableEq, Repr

/-- JS object spread `{ ...element, ...updates }`. -/
def applyUpdates (e : Element) (u : ElementUpdates) : Element :=
  { e with
    x := u.x.getD e.x
    y := u.y.getD e.y
    width := u.width.getD e.width
    height := u.height.getD e.height
    rotation := u.rotation.getD e.rotation }

/-- `addElement` from src/stores/whiteboardStore.ts. -/
def addElement (s : StoreState) (element : Element) : StoreState :=
  { s with
    elements := mapSet s.elements element.id element
    elementOrder := s.elementOrder ++ [element.id] }

/-- `updateElement` from src/stores/whiteboardStore.ts: silent no-op when the
id is absent. -/
def updateElement (s : StoreState) (id : String) (updates : ElementUpdates) :
    StoreState :=
  match mapLookup s.elements id with
  | none => s
  | some element =>
      { s with elements := mapSet s.elements id (applyUpdates element updates) }

/-- `deleteElement` from src/stores/whiteboardStore.ts. -/
def deleteElement (s : StoreState) (id : String) : StoreState :=
  { s with
    elements := mapDelete s.elements id
    elementOrder := s.elementOrder.filter (fun eid => eid ≠ id)
    selectedElementIds :=
      jsSetOfList (s.selectedElementIds.filter (fun eid => eid ≠ id)) }

/-- `deleteElements` from src/stores/whiteboardStore.ts. -/
def deleteElements (s : StoreState) (ids : List String) : StoreState :=
  { s with
    elements := ids.foldl mapDelete s.elements
    elementOrder := s.elementOrder.filter (fun id => !(ids.contains id))
    selectedElementIds :=
      jsSetOfList (s.selectedElementIds.filter (fun id => !(ids.contains id))) }

/-- `selectElement` from src/stores/whiteboardStore.ts. -/
def selectElement (s : StoreState) (id : String) : StoreState :=
  { s with selectedElementIds := jsSetOfList [id] }

/-- `selectElements` from src/stores/whiteboardStore.ts. -/
def selectElements (s : StoreState) (ids : List String) : StoreState :=
  { s with selectedElementIds := jsSetOfList ids }

/-- `addToSelection` from src/stores/whiteboardStore.ts. -/
def addToSelection (s : StoreState) (id : String) : StoreState :=
  { s with selectedElementIds := jsSetAdd s.selectedElementIds id }

/-- `clearSelection` from src/stores/whiteboardStore.ts. -/
def clearSelection (s : StoreState) : StoreState :=
  { s with selectedElementIds := [] }

/-- `setHoveredElement` from src/stores/whiteboardStore.ts. -/
def setHoveredElement (s : StoreState) (id : Option String) : StoreState :=
  { s with hoveredElementId := id }

/-- `bringToFront` from src/stores/whiteboardStore.ts. -/
def bringToFront (s : StoreState) (id : String) : StoreState :=
  let currentIndex := jsIndexOf s.elementOrder id
  if currentIndex = -1 ∨ currentIndex = (s.elementOrder.length : Int) - 1 then s
  else
    { s with
      elementOrder := s.elementOrder.filter (fun eid => eid ≠ id) ++ [id] }

/-- `sendToBack` from src/stores/whiteboardStore.ts. -/
def sendToBack (s : StoreState) (id : String) : StoreState :=
  let currentIndex := jsIndexOf s.elementOrder id
  if currentIndex = -1 ∨ currentIndex = 0 then s
  else
    { s with
      elementOrder := id :: s.elementOrder.filter (fun eid => eid ≠ id) }

/-- `bringForward` from src/stores/whiteboardStore.ts: swaps the id with its
successor in the z-order (the JS destructuring swap reads both old values
before assigning). -/
def bringForward (s : StoreState) (id : String) : StoreState :=
  let currentIndex := jsIndexOf s.elementOrder id
  if currentIndex = -1 ∨ currentIndex = (s.elementOrder.length : Int) - 1 then s
  else
    let i := currentIndex.toNat
    { s with
      elementOrder :=
        (s.elementOrder.set i (s.elementOrder.getD (i + 1) "")).set (i + 1)
          (s.elementOrder.getD i "") }

/-- `sendBackward` from src/stores/whiteboardStore.ts: swaps the id with its
predecessor in the z-order. -/
def sendBackward (s : StoreState) (id : String) : StoreState :=
  let currentIndex := jsIndexOf s.elementOrder id
  if currentIndex = -1 ∨ currentIndex = 0 then s
  else
    let i := currentIndex.toNat
    { s with
      elementOrder :=
        (s.elementOrder.set i (s.elementOrder.getD (i - 1) "")).set (i - 1)
          (s.elementOrder.getD i "") }

/-- The store mutations quantified over by the z-order integrity claim. -/
inductive StoreOp where
  | addElement (e : Element)
  | deleteElement (id : String)
  | deleteElements (ids : List String)
  | bringToFront (id : String)
  | sendToBack (id : String)
  | bringForward (id : String)
  | sendBackward (id : String)
deriving Repr

/-- Apply one store mutation. -/
def applyOp (s : StoreState) : StoreOp → StoreState
  | .addElement e => addElement s e
  | .deleteElement id => deleteElement s id
  | .deleteElements ids => deleteElements s ids
  | .bringToFront id => bringToFront s id
  | .sendToBack id => sendToBack s id
  | .bringForward id => bringForward s id
  | .sendBackward id => sendBackward s id

/-- Apply a sequence of store mutations. -/
def applyOps (s : StoreState) (ops : List StoreOp) : StoreState :=
  ops.foldl applyOp s

/-- Holds when every `addElement` in the sequence adds an id that is not yet a
key of the element map at the moment it runs (ids produced by the element
factory are globally fresh). -/
def freshOps : StoreState → List StoreOp → Bool
  | _, [] => true
  | s, op :: rest =>
      (match op with
       | .addElement e => (mapLookup s.elements e.id).isNone
       | _ => true) && freshOps (applyOp s op) rest

/-- `HandleType` from src/tools/SelectTool.ts (the non-null alternatives; the
null case is `Option Handle`). -/
inductive Handle where
  | nw | n | ne | e | se | s | sw | w
  | rotationHandle
deriving DecidableEq, Repr

/-- `TransformMode` from src/tools/SelectTool.ts (the non-null alternatives).
`dragSelect` is the drag-to-select marquee mode. -/
inductive TMode where
  | move
  | resize
  | rotate
  | dragSelect
deriving DecidableEq, Repr

/-- The per-element snapshot stored in `SelectTool.elementStartBounds`. -/
structure StartBounds where
  x : ℚ
  y : ℚ
  width : ℚ
  height : ℚ
  rotation : ℚ
deriving DecidableEq, Repr

/-- The mutable instance fields of `SelectTool`. -/
structure ToolState where
  threshold : ℚ := 5
  transformMode : Option TMode := none
  activeHandle : Option Handle := none
  dragStartPoint : Option Point := none
  dragCurrentPoint : Option Point := none
  elementStartBounds : List (String × StartBounds) := []
deriving DecidableEq, Repr

/-- Lookup in the `elementStartBounds` snapshot map. -/
def lookupBounds (m : List (String × StartBounds)) (k : String) :
    Option StartBounds :=
  (m.find? (fun p => p.1 = k)).map (fun p => p.2)

/-- `SelectTool.getHandlePositions`: the eight resize handles plus the
rotation handle, rotated about the element center when the element is
rotated. -/
def getHandlePositions (trig : TrigOps) (element : Element) :
    List (Handle × Point) :=
  let x := element.x
  let y := element.y
  let width := element.width
  let height := element.height
  let handles : List (Handle × Point) :=
    [ (.nw, { x := x, y := y })
    , (.n, { x := x + width / 2, y := y })
    , (.ne, { x := x + width, y := y })
    , (.e, { x := x + width, y := y + height / 2 })
    , (.se, { x := x + width, y := y + height })
    , (.s, { x := x + width / 2, y := y + height })
    , (.sw, { x := x, y := y + height })
    , (.w, { x := x, y := y + height / 2 })
    , (.rotationHandle, { x := x + width / 2, y := y - 30 }) ]
  if element.rotation ≠ 0 then
    let center := getElementCenter element
    handles.map (fun p => (p.1, rotatePoint trig p.2 center element.rotation))
  else
    handles

/-- `SelectTool.findHandleAtPoint`: first handle whose distance to the point
is within `handleSize + 2`. -/
def findHandleAtPoint (trig : TrigOps) (point : Point) (element : Element)
    (handleSize : ℚ) : Option Handle :=
  let handles := getHandlePositions trig element
  let threshold := handleSize + 2
  (handles.find? (fun p =>
    let dx := point.x - p.2.x
    let dy := point.y - p.2.y
    decide (trig.sqrt (dx * dx + dy * dy) ≤ threshold))).map (fun p => p.1)

/-- `SelectTool.findElementAtPoint`: topmost non-deleted, non-locked element
containing the point (z-order scanned from the top down). -/
def findElementAtPoint (trig : TrigOps) (point : Point)
    (elements : List (String × Element)) (elementOrder : List String)
    (threshold : ℚ) : Option Element :=
  elementOrder.reverse.findSome? (fun elementId =>
    match mapLookup elements elementId with
    | none => none
    | some element =>
        if element.isDeleted then none
        else if element.locked then none
        else if hitTestElement trig point element threshold then some element
        else none)

/-- `SelectTool.findElementsIntersectingRect`: ids of the non-deleted,
non-locked elements whose bounding box intersects the rectangle spanned by
the two corners. -/
def findElementsIntersectingRect (rectStart rectEnd : Point)
    (elements : List (String × Element)) (elementOrder : List String) :
    List String :=
  let minX := min rectStart.x rectEnd.x
  let minY := min rectStart.y rectEnd.y
  let maxX := max rectStart.x rectEnd.x
  let maxY := max rectStart.y rectEnd.y
  elementOrder.filter (fun elementId =>
    match mapLookup elements elementId with
    | none => false
    | some element =>
        if element.isDeleted then false
        else if element.locked then false
        else
          let elemMinX := element.x
          let elemMinY := element.y
          let elemMaxX := element.x + element.width
          let elemMaxY := element.y + element.height
          !(decide (elemMaxX < minX) || decide (elemMinX > maxX) ||
            decide (elemMaxY < minY) || decide (elemMinY > maxY)))

/-- The handle-switch plus aspect-ratio phase of `SelectTool.performResize`
(everything before the final minimum-size clamp). -/
def resizeRaw (startBounds : StartBounds) (dx dy : ℚ) (handle : Handle)
    (maintainAspectRatio : Bool) : StartBounds :=
  let r0 : StartBounds :=
    match handle with
    | .nw =>
        { startBounds with
          x := startBounds.x + dx, y := startBounds.y + dy
          width := startBounds.width - dx, height := startBounds.height - dy }
    | .n =>
        { startBounds with
          y := startBounds.y + dy, height := startBounds.height - dy }
    | .ne =>
        { startBounds with
          y := startBounds.y + dy
          width := startBounds.width + dx, height := startBounds.height - dy }
    | .e => { startBounds with width := startBounds.width + dx }
    | .se =>
        { startBounds with
          width := startBounds.width + dx, height := startBounds.height + dy }
    | .s => { startBounds with height := startBounds.height + dy }
    | .sw =>
        { startBounds with
          x := startBounds.x + dx
          width := startBounds.width - dx, height := startBounds.height + dy }
    | .w =>
        { startBounds with
          x := startBounds.x + dx, width := startBounds.width - dx }
    | .rotationHandle => startBounds
  if maintainAspectRatio then
    let aspectRatio := startBounds.width / startBounds.height
    if |r0.width - startBounds.width| > |r0.height - startBounds.height| then
      let newHeight := r0.width / aspectRatio
      let newY :=
        if handle = .nw ∨ handle = .n ∨ handle = .ne then
          startBounds.y + startBounds.height - newHeight
        else r0.y
      { r0 with y := newY, height := newHeight }
    else
      let newWidth := r0.height * aspectRatio
      let newX :=
        if handle = .nw ∨ handle = .w ∨ handle = .sw then
          startBounds.x + startBounds.width - newWidth
        else r0.x
      { r0 with x := newX, width := newWidth }
  else r0

/-- The geometric result of `SelectTool.performResize`: the raw resize
followed by the minimum-size clamp (width and height floored at 1). -/
def resizeBounds (startBounds : StartBounds) (dx dy : ℚ) (handle : Handle)
    (maintainAspectRatio : Bool) : StartBounds :=
  let r := resizeRaw startBounds dx dy handle maintainAspectRatio
  { r with
    width := if r.width < 1 then 1 else r.width
    height := if r.height < 1 then 1 else r.height }

/-- `SelectTool.performResize`: compute the clamped bounds and write them to
the store through `updateElement`. -/
def performResize (store : StoreState) (elementId : String)
    (startBounds : StartBounds) (dx dy : ℚ) (handle : Handle)
    (maintainAspectRatio : Bool) : StoreState :=
  let r := resizeBounds startBounds dx dy handle maintainAspectRatio
  updateElement store elementId
    { x := some r.x, y := some r.y, width := some r.width, height := some r.height }

/-- The hover tail of `SelectTool.onPointerMove`: find the topmost element
under the pointer and publish its id (or null) as the hovered element. -/
def hoverTail (trig : TrigOps) (ts : ToolState) (store : StoreState)
    (worldPoint : Point) : StoreState :=
  let hoveredElement :=
    findElementAtPoint trig worldPoint store.elements store.elementOrder ts.threshold
  setHoveredElement store (hoveredElement.map (fun e => e.id))

/-- The non-transform branch of `SelectTool.onPointerMove`: when exactly one
element is selected and the pointer is over one of its handles, the selected
id is published as hovered; otherwise the generic hover tail runs. -/
def hoverPath (trig : TrigOps) (ts : ToolState) (store : StoreState)
    (worldPoint : Point) : StoreState :=
  if store.selectedElementIds.length = 1 then
    match store.selectedElementIds.head? with
    | some selectedId =>
        match mapLookup store.elements selectedId with
        | some selectedElement =>
            match findHandleAtPoint trig worldPoint selectedElement 8 with
            | some _ => setHoveredElement store (some selectedId)
            | none => hoverTail trig ts store worldPoint
        | none => hoverTail trig ts store worldPoint
    | none => hoverTail trig ts store worldPoint
  else hoverTail trig ts store worldPoint

/-- `SelectTool.onPointerMove` (cursor styling, a pure DOM effect, is not
modelled): convert the pointer position to world coordinates, then either
advance the active transform gesture or update the hover state. -/
def onPointerMove (trig : TrigOps) (ts : ToolState) (store : StoreState)
    (screenX screenY : ℚ) (viewport : ViewportTransform) (shiftKey : Bool) :
    ToolState × StoreState :=
  let worldPoint := screenToWorld screenX screenY viewport
  match ts.transformMode, ts.dragStartPoint with
  | some mode, some startPt =>
      let dx := worldPoint.x - startPt.x
      let dy := worldPoint.y - startPt.y
      match mode with
      | .move =>
          let store2 := store.selectedElementIds.foldl (fun st id =>
            match lookupBounds ts.elementStartBounds id with
            | some startBounds =>
                updateElement st id
                  { x := some (startBounds.x + dx), y := some (startBounds.y + dy) }
            | none => st) store
          (ts, store2)
      | .resize =>
          match ts.activeHandle with
          | some handle =>
              match store.selectedElementIds.head? with
              | some selectedId =>
                  match lookupBounds ts.elementStartBounds selectedId with
                  | some startBounds =>
                      (ts, performResize store selectedId startBounds dx dy handle shiftKey)
                  | none => (ts, store)
              | none => (ts, store)
          | none => (ts, store)
      | .rotate =>
          match store.selectedElementIds.head? with
          | some selectedId =>
              match mapLookup store.elements selectedId,
                    lookupBounds ts.elementStartBounds selectedId with
              | some element, some startBounds =>
                  let center := getElementCenter element
                  let startAngle :=
                    trig.atan2 (startPt.y - center.y) (startPt.x - center.x)
                  let currentAngle :=
                    trig.atan2 (worldPoint.y - center.y) (worldPoint.x - center.x)
                  let deltaAngle := currentAngle - startAngle
                  (ts, updateElement store selectedId
                    { rotation := some (startBounds.rotation + deltaAngle) })
              | _, _ => (ts, store)
          | none => (ts, store)
      | .dragSelect => ({ ts with dragCurrentPoint := some worldPoint }, store)
  | _, _ => (ts, hoverPath trig ts store worldPoint)

/-- `SelectTool.onPointerUp`: finish a drag-select (replace or shift-union
the selection with the intersecting ids when any), then unconditionally end
the transform gesture and clear the drag snapshot. -/
def onPointerUp (ts : ToolState) (store : StoreState) (shiftKey : Bool) :
    ToolState × StoreState :=
  let store2 :=
    match ts.transformMode, ts.dragStartPoint, ts.dragCurrentPoint with
    | some .dragSelect, some p1, some p2 =>
        let intersectingIds :=
          findElementsIntersectingRect p1 p2 store.elements store.elementOrder
        if intersectingIds.length > 0 then
          if shiftKey then
            selectElements store (intersectingIds.foldl jsSetAdd store.selectedElementIds)
          else
            selectElements store intersectingIds
        else store
    | _, _, _ => store
  ({ ts with
      transformMode := none
      activeHandle := none
      dragStartPoint := none
      dragCurrentPoint := none
      elementStartBounds := [] }, store2)

/-- The rectangle returned by `SelectTool.getDragSelectionBox`. -/
structure SelectionBox where
  x : ℚ
  y : ℚ
  width : ℚ
  height : ℚ
deriving DecidableEq, Repr

/-- `SelectTool.getDragSelectionBox`: the normalized pending marquee
rectangle in drag-select mode, null otherwise. -/
def getDragSelectionBox (ts : ToolState) : Option SelectionBox :=
  match ts.transformMode, ts.dragStartPoint, ts.dragCurrentPoint with
  | some .dragSelect, some p1, some p2 =>
      let minX := min p1.x p2.x
      let minY := min p1.y p2.y
      let maxX := max p1.x p2.x
      let maxY := max p1.y p2.y
      some { x := minX, y := minY, width := maxX - minX, height := maxY - minY }
  | _, _, _ => none

/-- `DirtyRegion` from src/lib/dirty-rect.ts. -/
structure DirtyRegion where
  x : ℚ
  y : ℚ
  width : ℚ
  height : ℚ
deriving DecidableEq, Repr

/-- The mutable fields of `DirtyRectManager` from src/lib/dirty-rect.ts. -/
structure DirtyRectManager where
  dirtyRegions : List DirtyRegion := []
  isDirty : Bool := false
  fullRedrawNeeded : Bool := true
deriving DecidableEq, Repr

/-- `DirtyRectManager.boundsIntersect`. -/
def drBoundsIntersect (x1 y1 w1 h1 x2 y2 w2 h2 : ℚ) : Bool :=
  !(decide (x1 + w1 < x2) || decide (x2 + w2 < x1) ||
    decide (y1 + h1 < y2) || decide (y2 + h2 < y1))

/-- `DirtyRectManager.regionsOverlap`. -/
def regionsOverlap (a b : DirtyRegion) : Bool :=
  drBoundsIntersect a.x a.y a.width a.height b.x b.y b.width b.height

/-- Insertion of a region into a list sorted by ascending x; `sortByX` models
`[...regions].sort((a, b) => a.x - b.x)`. -/
def insertByX (r : DirtyRegion) : List DirtyRegion → List DirtyRegion
  | [] => [r]
  | a :: t => if r.x ≤ a.x then r :: a :: t else a :: insertByX r t

/-- Sort regions by ascending x (the JS comparator `a.x - b.x`). -/
def sortByX (regions : List DirtyRegion) : List DirtyRegion :=
  regions.foldr insertByX []

/-- The merge loop of `DirtyRectManager.mergeRegions`: keep a current region,
union it with the next one when they overlap, emit it otherwise. -/
def mergeLoop (current : DirtyRegion) : List DirtyRegion → List DirtyRegion
  | [] => [current]
  | next :: rest =>
      if regionsOverlap current next then
        let minX := min current.x next.x
        let minY := min current.y next.y
        let maxX := max (current.x + current.width) (next.x + next.width)
        let maxY := max (current.y + current.height) (next.y + next.height)
        mergeLoop
          { x := minX, y := minY, width := maxX - minX, height := maxY - minY }
          rest
      else current :: mergeLoop next rest

/-- `DirtyRectManager.mergeRegions`: empty and singleton lists pass through;
more than 10 regions force a full redraw (returning no regions); otherwise
overlapping regions are merged after sorting by x. -/
def mergeRegions (m : DirtyRectManager) (regions : List DirtyRegion) :
    List DirtyRegion × DirtyRectManager :=
  if regions.length = 0 then ([], m)
  else if regions.length = 1 then (regions, m)
  else if regions.length > 10 then ([], { m with fullRedrawNeeded := true })
  else
    match sortByX regions with
    | [] => ([], m)
    | first :: rest => (mergeLoop first rest, m)

/-- `DirtyRectManager.getDirtyRegions`: empty when a full redraw is pending,
otherwise the merged dirty regions (merging may itself trigger the full
redraw fallback). -/
def getDirtyRegions (m : DirtyRectManager) :
    List DirtyRegion × DirtyRectManager :=
  if m.fullRedrawNeeded then ([], m)
  else mergeRegions m m.dirtyRegions

/-- `DirtyRectManager.needsFullRedraw`. -/
def needsFullRedraw (m : DirtyRectManager) : Bool :=
  m.fullRedrawNeeded

/-- `DirtyRectManager.markRegionDirty`. -/
def markRegionDirty (m : DirtyRectManager) (x y width height : ℚ) :
    DirtyRectManager :=
  { m with
    dirtyRegions := m.dirtyRegions ++ [{ x := x, y := y, width := width, height := height }]
    isDirty := true }

/-- A trivial interpretation of the numeric primitives, used to instantiate
universally quantified theorems at concrete inputs. -/
def trig0 : TrigOps :=
  { cos := fun _ => 0, sin := fun _ => 0, atan2 := fun _ _ => 0, sqrt := fun _ => 0 }

/-- Helper: `updateElement` on an absent id is the identity. -/
lemma updateElement_absent (s : StoreState) (id : String) (u : ElementUpdates)
    (h : mapLookup s.elements id = none) : updateElement s id u = s := by
  simp [updateElement, h]

/-- Helper: a missed lookup means no entry carries the key. -/
lemma mapLookup_none_iff (m : List (String × Element)) (k : String) :
    mapLookup m k = none ↔ ∀ p ∈ m, p.1 ≠ k := by
  simp [mapLookup, Option.map_eq_none', List.find?_eq_none]

/-- Helper: looking up the key just written by `mapSet` yields the new
value. -/
lemma mapLookup_mapSet_self (m : List (String × Element)) (k : String)
    (v : Element) : mapLookup (mapSet m k v) k = some v := by
  unfold mapSet
  by_cases hany : m.any (fun p => p.1 = k) = true
  · rw [if_pos hany]
    induction m with
    | nil => simp at hany
    | cons p t ih =>
      by_cases hp : p.1 = k
      · simp [mapLookup, hp]
      · simp only [List.any_cons, Bool.or_eq_true, decide_eq_true_eq] at hany
        rcases hany with hpk | ht
        · exact absurd hpk hp
        · simp only [List.map_cons, if_neg hp]
          simp only [mapLookup, List.find?_cons, decide_eq_false hp]
          exact ih ht
  · rw [if_neg hany]
    simp only [Bool.not_eq_true, List.any_eq_false, decide_eq_true_eq] at hany
    simp only [mapLookup, List.find?_append]
    have h1 : m.find? (fun p => decide (p.1 = k)) = none := by
      rw [List.find?_eq_none]
      intro x hx
      simp [hany x hx]
    rw [h1]
    simp [List.find?]

/-- C5: for every viewport with nonzero zoom and every screen point,
`worldToScreen` inverts `screenToWorld` exactly over the rationals. -/
theorem claim5_screen_world_round_trip (viewport : ViewportTransform)
    (sx sy : ℚ) (hz : viewport.zoom ≠ 0) :
    worldToScreen (screenToWorld sx sy viewport).x
      (screenToWorld sx sy viewport).y viewport = { x := sx, y := sy } := by
  simp only [screenToWorld, worldToScreen, Point.mk.injEq]
  constructor <;> field_simp

/-- Witness viewport for the C5 witness. -/
def vp5 : ViewportTransform := { zoom := 2, panX := 3, panY := -4 }

/-- Witness for C5 at a concrete viewport and screen point. -/
theorem claim5_witness :
    vp5.zoom ≠ 0 ∧
    worldToScreen (screenToWorld 7 9 vp5).x (screenToWorld 7 9 vp5).y vp5 =
      { x := 7, y := 9 } :=
  ⟨by norm_num [vp5], claim5_screen_world_round_trip vp5 7 9 (by norm_num [vp5])⟩

/-- C6: for every element with positive width and height and every rotation
value (under any interpretation of cos and sin), the unrotated bounding-box
center passes the rotation-aware point-in-rectangle test. -/
theorem claim6_center_inside (trig : TrigOps) (element : Element)
    (hw : 0 < element.width) (hh : 0 < element.height) :
    isPointInRectangle trig (getElementCenter element) element 0 = true := by
  simp only [isPointInRectangle, getElementCenter]
  split_ifs with hr
  · simp only [Bool.and_eq_true, decide_eq_true_eq]
    refine ⟨⟨⟨?_, ?_⟩, ?_⟩, ?_⟩ <;> linarith
  · simp only [Bool.and_eq_true, decide_eq_true_eq]
    refine ⟨⟨⟨?_, ?_⟩, ?_⟩, ?_⟩ <;> · ring_nf; linarith

/-- Witness element for the C6 witness: rotated, 4 wide, 2 tall. -/
def elt6 : Element :=
  { id := "w6", type := .rectangle, x := 1, y := 2, width := 4, height := 2,
    rotation := 1, locked := false, isDeleted := false }

/-- Witness for C6 at a concrete rotated element. -/
theorem claim6_witness :
    (0 : ℚ) < elt6.width ∧ (0 : ℚ) < elt6.height ∧
    isPointInRectangle trig0 (getElementCenter elt6) elt6 0 = true :=
  ⟨by norm_num [elt6], by norm_num [elt6],
    claim6_center_inside trig0 elt6 (by norm_num [elt6]) (by norm_num [elt6])⟩

/-- C8: updating a non-existent element id is a silent no-op: the whole store
state (elements, z-order, selection, hover, viewport) is returned
unchanged. -/
theorem claim8_update_missing_noop (s : StoreState) (id : String)
    (updates : ElementUpdates) (h : mapLookup s.elements id = none) :
    updateElement s id updates = s :=
  updateElement_absent s id updates h

/-- Witness for C8 on a concrete state missing the id. -/
theorem claim8_witness :
    mapLookup initialState.elements "ghost" = none ∧
    updateElement initialState "ghost" { x := some 5 } = initialState :=
  ⟨rfl, claim8_update_missing_noop initialState "ghost" { x := some 5 } rfl⟩

/-- Helper: the clamp phase of the resize puts both dimensions at 1 or
above, whatever the raw resize produced. -/
lemma resizeBounds_min (startBounds : StartBounds) (dx dy : ℚ)
    (handle : Handle) (shift : Bool) :
    1 ≤ (resizeBounds startBounds dx dy handle shift).width ∧
    1 ≤ (resizeBounds startBounds dx dy handle shift).height := by
  simp only [resizeBounds]
  constructor <;> · split_ifs <;> linarith

/-- C3: for every resize handle, starting bounds and drag delta, with or
without the aspect-ratio modifier, the element stored by `performResize`
has width and height at least 1. -/
theorem claim3_resize_min_size (store : StoreState) (elementId : String)
    (startBounds : StartBounds) (dx dy : ℚ) (handle : Handle) (shift : Bool)
    (e : Element)
    (h : mapLookup (performResize store elementId startBounds dx dy handle
      shift).elements elementId = some e) :
    1 ≤ e.width ∧ 1 ≤ e.height := by
  unfold performResize updateElement at h
  rcases hl : mapLookup store.elements elementId with _ | e0
  · rw [hl] at h
    simp only at h
    rw [hl] at h
    exact absurd h (by simp)
  · rw [hl] at h
    simp only at h
    rw [mapLookup_mapSet_self] at h
    have he := Option.some_injective _ h
    have hm := resizeBounds_min startBounds dx dy handle shift
    rw [← he]
    simpa [applyUpdates] using hm

/-- Concrete starting store for the C3 witness and the C7 scenario: one
unrotated 100×100 rectangle with id "a" at the origin. -/
def eltA : Element :=
  { id := "a", type := .rectangle, x := 0, y := 0, width := 100, height := 100,
    rotation := 0, locked := false, isDeleted := false }

/-- Store holding exactly `eltA`. -/
def storeA : StoreState := addElement initialState eltA

/-- Helper: the concrete resize used by the C3 witness, computed. -/
lemma storeA_resize_concrete :
    mapLookup (performResize storeA "a" { x := 0, y := 0, width := 100, height := 100, rotation := 0 }
      (-500) (-500) Handle.se false).elements "a" =
      some { eltA with x := 0, y := 0, width := 1, height := 1 } := by
  have hb : resizeBounds { x := 0, y := 0, width := 100, height := 100, rotation := 0 }
      (-500) (-500) Handle.se false =
      { x := 0, y := 0, width := 1, height := 1, rotation := 0 } := by
    norm_num [resizeBounds, resizeRaw]
  have hA : mapLookup storeA.elements "a" = some eltA := by
    simp [storeA, addElement, initialState, mapSet, mapLookup, eltA]
  simp only [performResize, hb, updateElement, hA]
  rw [mapLookup_mapSet_self]
  norm_num [applyUpdates, eltA]

/-- Witness for C3: a shrinking drag on the concrete store still stores
dimensions at least 1. -/
theorem claim3_witness :
    mapLookup (performResize storeA "a" { x := 0, y := 0, width := 100, height := 100, rotation := 0 }
      (-500) (-500) Handle.se false).elements "a" =
      some { eltA with x := 0, y := 0, width := 1, height := 1 } ∧
    (1 : ℚ) ≤ ({ eltA with x := 0, y := 0, width := 1, height := 1 } : Element).width ∧
    (1 : ℚ) ≤ ({ eltA with x := 0, y := 0, width := 1, height := 1 } : Element).height :=
  ⟨storeA_resize_concrete, claim3_resize_min_size storeA "a"
      { x := 0, y := 0, width := 100, height := 100, rotation := 0 }
      (-500) (-500) Handle.se false _ storeA_resize_concrete⟩

/-- C7: scenario D — handle `se`, drag (50, 30) on a (0,0,100,100) box with
the aspect-ratio modifier held stores width 150 and height 150 with x and y
unchanged at 0 (dominant width change drives height via the 1:1 ratio). -/
theorem claim7_scenario_d :
    ((mapLookup (performResize storeA "a"
        { x := 0, y := 0, width := 100, height := 100, rotation := 0 }
        50 30 Handle.se true).elements "a").map Element.width = some 150) ∧
    ((mapLookup (performResize storeA "a"
        { x := 0, y := 0, width := 100, height := 100, rotation := 0 }
        50 30 Handle.se true).elements "a").map Element.height = some 150) ∧
    ((mapLookup (performResize storeA "a"
        { x := 0, y := 0, width := 100, height := 100, rotation := 0 }
        50 30 Handle.se true).elements "a").map Element.x = some 0) ∧
    ((mapLookup (performResize storeA "a"
        { x := 0, y := 0, width := 100, height := 100, rotation := 0 }
        50 30 Handle.se true).elements "a").map Element.y = some 0) := by
  have hb : resizeBounds { x := 0, y := 0, width := 100, height := 100, rotation := 0 }
      50 30 Handle.se true =
      { x := 0, y := 0, width := 150, height := 150, rotation := 0 } := by
    norm_num [resizeBounds, resizeRaw]
    decide
  have hA : mapLookup storeA.elements "a" = some eltA := by
    simp [storeA, addElement, initialState, mapSet, mapLookup, eltA]
  simp only [performResize, hb, updateElement, hA, mapLookup_mapSet_self]
  norm_num [applyUpdates, eltA]

/-- C10: while in drag-select mode with both drag points recorded,
`getDragSelectionBox` returns the normalized rectangle (coordinate-wise
minima, nonnegative extents); in every other transform mode it returns
null. -/
theorem claim10_drag_selection_box :
    (∀ (ts : ToolState) (p1 p2 : Point),
      ts.transformMode = some TMode.dragSelect →
      ts.dragStartPoint = some p1 →
      ts.dragCurrentPoint = some p2 →
      getDragSelectionBox ts =
        some { x := min p1.x p2.x, y := min p1.y p2.y,
               width := max p1.x p2.x - min p1.x p2.x,
               height := max p1.y p2.y - min p1.y p2.y } ∧
      0 ≤ max p1.x p2.x - min p1.x p2.x ∧
      0 ≤ max p1.y p2.y - min p1.y p2.y) ∧
    (∀ ts : ToolState, ts.transformMode ≠ some TMode.dragSelect →
      getDragSelectionBox ts = none) := by
  constructor
  · intro ts p1 p2 hm h1 h2
    refine ⟨by simp [getDragSelectionBox, hm, h1, h2], ?_, ?_⟩ <;>
      simp [sub_nonneg, min_le_max]
  · intro ts hm
    unfold getDragSelectionBox
    rcases hmode : ts.transformMode with _ | mode
    · rfl
    · cases mode
      · rfl
      · rfl
      · rfl
      · exact absurd hmode hm

/-- Concrete drag-select tool state for the C10 witness. -/
def tsDrag : ToolState :=
  { threshold := 5, transformMode := some TMode.dragSelect,
    activeHandle := none,
    dragStartPoint := some { x := 10, y := 2 },
    dragCurrentPoint := some { x := 4, y := 8 },
    elementStartBounds := [] }

/-- Witness for C10 at a concrete drag-select state (dragged up-left) and a
concrete non-drag-select state. -/
theorem claim10_witness :
    (getDragSelectionBox tsDrag =
      some { x := 4, y := 2, width := 6, height := 6 } ∧
      (0 : ℚ) ≤ 6 ∧ (0 : ℚ) ≤ 6) ∧
    getDragSelectionBox { tsDrag with transformMode := some TMode.move } = none := by
  constructor
  · have h := claim10_drag_selection_box.1 tsDrag { x := 10, y := 2 } { x := 4, y := 8 }
      (by decide) (by decide) (by decide)
    refine ⟨?_, by norm_num, by norm_num⟩
    rw [h.1]
    norm_num
  · exact claim10_drag_selection_box.2 { tsDrag with transformMode := some TMode.move }
      (by decide)


/-- C9: when more than 10 distinct dirty rectangles have accumulated,
requesting the dirty regions falls back to a full redraw: the returned
region list is empty and the resulting manager reports
`needsFullRedraw`. -/
theorem claim9_dirty_fallback (m : DirtyRectManager)
    (h : 10 < m.dirtyRegions.dedup.length) :
    (getDirtyRegions m).1 = [] ∧
    needsFullRedraw (getDirtyRegions m).2 = true := by
  have hlen : 10 < m.dirtyRegions.length :=
    lt_of_lt_of_le h (List.Sublist.length_le (List.dedup_sublist _))
  unfold getDirtyRegions needsFullRedraw
  cases hf : m.fullRedrawNeeded
  · have h0 : ¬(m.dirtyRegions.length = 0) := by omega
    have h1 : ¬(m.dirtyRegions.length = 1) := by omega
    have h2 : m.dirtyRegions.length > 10 := hlen
    simp only [hf, Bool.false_eq_true, if_false]
    unfold mergeRegions
    rw [if_neg h0, if_neg h1, if_pos h2]
    simp
  · simp [hf]

/-- Eleven pairwise distinct dirty regions for the C9 witness. -/
def regions11 : List DirtyRegion :=
  [ { x := 0, y := 0, width := 1, height := 1 }
  , { x := 1, y := 0, width := 1, height := 1 }
  , { x := 2, y := 0, width := 1, height := 1 }
  , { x := 3, y := 0, width := 1, height := 1 }
  , { x := 4, y := 0, width := 1, height := 1 }
  , { x := 5, y := 0, width := 1, height := 1 }
  , { x := 6, y := 0, width := 1, height := 1 }
  , { x := 7, y := 0, width := 1, height := 1 }
  , { x := 8, y := 0, width := 1, height := 1 }
  , { x := 9, y := 0, width := 1, height := 1 }
  , { x := 10, y := 0, width := 1, height := 1 } ]

/-- Concrete manager state for the C9 witness: eleven accumulated regions
with no full redraw pending yet. -/
def mgr11 : DirtyRectManager :=
  { dirtyRegions := regions11, isDirty := true, fullRedrawNeeded := false }

/-- Witness for C9 at a concrete manager holding 11 distinct regions. -/
theorem claim9_witness :
    10 < mgr11.dirtyRegions.dedup.length ∧
    (getDirtyRegions mgr11).1 = [] ∧
    needsFullRedraw (getDirtyRegions mgr11).2 = true := by
  have hnd : mgr11.dirtyRegions.Nodup := by
    simp only [mgr11, regions11, List.nodup_cons, List.mem_cons,
      List.mem_singleton, List.not_mem_nil, DirtyRegion.mk.injEq]
    norm_num
  have h : 10 < mgr11.dirtyRegions.dedup.length := by
    rw [List.dedup_eq_self.mpr hnd]
    simp [mgr11, regions11]
  exact ⟨h, claim9_dirty_fallback mgr11 h⟩

/-- Helper: deleting a key removes it from the map. -/
lemma mapLookup_mapDelete_self (m : List (String × Element)) (id : String) :
    mapLookup (mapDelete m id) id = none := by
  rw [mapLookup_none_iff]
  intro p hp
  simp only [mapDelete, List.mem_filter, decide_eq_true_eq] at hp
  exact hp.2

/-- Helper: deleting any key preserves the absence of a key. -/
lemma mapLookup_mapDelete_of_none (m : List (String × Element)) (k id : String)
    (h : mapLookup m id = none) : mapLookup (mapDelete m k) id = none := by
  rw [mapLookup_none_iff] at h ⊢
  intro p hp
  simp only [mapDelete, List.mem_filter, decide_eq_true_eq] at hp
  exact h p hp.1

/-- Helper: folding deletions preserves the absence of a key. -/
lemma mapLookup_foldl_mapDelete_of_none (ids : List String)
    (m : List (String × Element)) (id : String) (h : mapLookup m id = none) :
    mapLookup (ids.foldl mapDelete m) id = none := by
  induction ids generalizing m with
  | nil => exact h
  | cons a t ih => exact ih (mapDelete m a) (mapLookup_mapDelete_of_none m a id h)

/-- Helper: folding deletions over a list containing the key removes it. -/
lemma mapLookup_foldl_mapDelete_mem (ids : List String)
    (m : List (String × Element)) (id : String) (h : id ∈ ids) :
    mapLookup (ids.foldl mapDelete m) id = none := by
  induction ids generalizing m with
  | nil => cases h
  | cons a t ih =>
    rcases List.mem_cons.mp h with rfl | ht
    · exact mapLookup_foldl_mapDelete_of_none t (mapDelete m id) id
        (mapLookup_mapDelete_self m id)
    · exact ih (mapDelete m a) ht

/-- Helper: membership in a JS-set after `add`. -/
lemma mem_jsSetAdd (l : List String) (x y : String) :
    y ∈ jsSetAdd l x ↔ y ∈ l ∨ y = x := by
  unfold jsSetAdd
  split_ifs with hc
  · have hx : x ∈ l := by
      have := hc
      simpa [List.contains, List.elem_iff] using this
    constructor
    · exact Or.inl
    · rintro (h | rfl)
      · exact h
      · exact hx
  · simp [List.mem_append]

/-- Helper: membership in `new Set(array)` is membership in the array. -/
lemma mem_jsSetOfList (l : List String) (x : String) :
    x ∈ jsSetOfList l ↔ x ∈ l := by
  have aux : ∀ (l acc : List String),
      x ∈ l.foldl jsSetAdd acc ↔ x ∈ acc ∨ x ∈ l := by
    intro l
    induction l with
    | nil => intro acc; simp
    | cons a t ih =>
      intro acc
      simp only [List.foldl_cons, ih (jsSetAdd acc a), mem_jsSetAdd,
        List.mem_cons]
      tauto
  simpa using aux l []

/-- Concrete state for the C1 counterexample: element "a" present, selected
and hovered. -/
def sHover : StoreState :=
  { viewport := DEFAULT_VIEWPORT
    elements := [("a", eltA)]
    elementOrder := ["a"]
    selectedElementIds := ["a"]
    hoveredElementId := some "a" }

/-- Counterexample for C1 as stated: deleting the hovered element "a" does
NOT clear the hovered-element id — `deleteElement` (and `deleteElements`)
never touch `hoveredElementId`, so it still references the deleted id. -/
theorem claim1_counterexample :
    sHover.hoveredElementId = some "a" ∧
    (deleteElement sHover "a").hoveredElementId = some "a" ∧
    (deleteElement sHover "a").hoveredElementId ≠ none := by
  refine ⟨rfl, rfl, ?_⟩
  simp [deleteElement, sHover]

/-- C1 (amended): deleting an element id (via `deleteElement` or
`deleteElements`) removes it from the element map, from the z-order list and
from the selection set, but leaves the hovered-element id unchanged (the
store does not clear it). -/
theorem claim1_delete_consistency (s : StoreState) (id : String)
    (ids : List String) (hmem : id ∈ ids) :
    (mapLookup (deleteElement s id).elements id = none ∧
     id ∉ (deleteElement s id).elementOrder ∧
     id ∉ (deleteElement s id).selectedElementIds ∧
     (deleteElement s id).hoveredElementId = s.hoveredElementId) ∧
    (mapLookup (deleteElements s ids).elements id = none ∧
     id ∉ (deleteElements s ids).elementOrder ∧
     id ∉ (deleteElements s ids).selectedElementIds ∧
     (deleteElements s ids).hoveredElementId = s.hoveredElementId) := by
  refine ⟨⟨mapLookup_mapDelete_self s.elements id, ?_, ?_, rfl⟩,
          ⟨mapLookup_foldl_mapDelete_mem ids s.elements id hmem, ?_, ?_, rfl⟩⟩
  · simp [deleteElement, List.mem_filter]
  · simp only [deleteElement, mem_jsSetOfList, List.mem_filter,
      decide_eq_true_eq]
    intro h
    exact h.2 rfl
  · simp only [deleteElements, List.mem_filter, Bool.not_eq_true]
    intro h
    have := h.2
    simp [List.contains, List.elem_iff, hmem] at this
  · simp only [deleteElements, mem_jsSetOfList, List.mem_filter,
      Bool.not_eq_true]
    intro h
    have := h.2
    simp [List.contains, List.elem_iff, hmem] at this

/-- Witness for C1 (amended) on the concrete hovered state. -/
theorem claim1_witness :
    "a" ∈ ["a"] ∧
    ((mapLookup (deleteElement sHover "a").elements "a" = none ∧
      "a" ∉ (deleteElement sHover "a").elementOrder ∧
      "a" ∉ (deleteElement sHover "a").selectedElementIds ∧
      (deleteElement sHover "a").hoveredElementId = sHover.hoveredElementId) ∧
     (mapLookup (deleteElements sHover ["a"]).elements "a" = none ∧
      "a" ∉ (deleteElements sHover ["a"]).elementOrder ∧
      "a" ∉ (deleteElements sHover ["a"]).selectedElementIds ∧
      (deleteElements sHover ["a"]).hoveredElementId = sHover.hoveredElementId)) :=
  ⟨by decide, claim1_delete_consistency sHover "a" ["a"] (by decide)⟩

/-- Tool state for the C4 counterexample: a resize gesture on id "a" is in
progress (snapshot taken at pointer-down). -/
def ts4 : ToolState :=
  { threshold := 5
    transformMode := some TMode.resize
    activeHandle := some Handle.se
    dragStartPoint := some { x := 0, y := 0 }
    dragCurrentPoint := none
    elementStartBounds := [("a", { x := 0, y := 0, width := 100, height := 100, rotation := 0 })] }

/-- Store for the C4 counterexample: "a" is still selected but has been
deleted from the element map by an external actor mid-gesture. -/
def st4 : StoreState := { initialState with selectedElementIds := ["a"] }

/-- Counterexample for C4 as stated: with the transformed id absent from the
element map, the next `onPointerMove` does NOT abort the gesture — the
engine stays in the resize mode instead of returning to Idle
(`transformMode` is still non-null afterwards). -/
theorem claim4_counterexample :
    mapLookup st4.elements "a" = none ∧
    (onPointerMove trig0 ts4 st4 10 10 DEFAULT_VIEWPORT false).1.transformMode =
      some TMode.resize ∧
    (onPointerMove trig0 ts4 st4 10 10 DEFAULT_VIEWPORT false).1.transformMode ≠
      none := by
  refine ⟨rfl, rfl, ?_⟩
  intro h
  rw [show (onPointerMove trig0 ts4 st4 10 10 DEFAULT_VIEWPORT false).1.transformMode =
    some TMode.resize from rfl] at h
  cases h

/-- C4 (amended): a move/resize/rotate gesture whose transformed ids are no
longer in the element map is harmless but is NOT aborted by
`onPointerMove` — the callback leaves both the tool state and the store
completely unchanged — while `onPointerUp` always ends the gesture,
returning the engine to Idle (transform mode and active handle null, drag
snapshot cleared) whatever the store contains. -/
theorem claim4_gesture_abort :
    (∀ (trig : TrigOps) (ts : ToolState) (store : StoreState)
       (sx sy : ℚ) (vp : ViewportTransform) (shift : Bool)
       (mode : TMode) (startPt : Point),
      ts.transformMode = some mode →
      (mode = TMode.move ∨ mode = TMode.resize ∨ mode = TMode.rotate) →
      ts.dragStartPoint = some startPt →
      (∀ id, id ∈ store.selectedElementIds → mapLookup store.elements id = none) →
      onPointerMove trig ts store sx sy vp shift = (ts, store)) ∧
    (∀ (ts : ToolState) (store : StoreState) (shift : Bool),
      (onPointerUp ts store shift).1.transformMode = none ∧
      (onPointerUp ts store shift).1.activeHandle = none ∧
      (onPointerUp ts store shift).1.dragStartPoint = none ∧
      (onPointerUp ts store shift).1.dragCurrentPoint = none ∧
      (onPointerUp ts store shift).1.elementStartBounds = []) := by
  constructor
  · intro trig ts store sx sy vp shift mode startPt hm hmode hsp habs
    unfold onPointerMove
    rw [hm, hsp]
    rcases hmode with rfl | rfl | rfl
    · simp only
      congr 1
      have aux : ∀ (f : StoreState → String → StoreState) (l : List String),
          (∀ id, id ∈ l → f store id = store) → l.foldl f store = store := by
        intro f l
        induction l with
        | nil => intro _; rfl
        | cons a t ih =>
          intro hall
          simp only [List.foldl_cons, hall a (List.mem_cons_self a t)]
          exact ih (fun id hid => hall id (List.mem_cons_of_mem a hid))
      apply aux
      intro id hid
      have ha := habs id hid
      rcases hb : lookupBounds ts.elementStartBounds id with _ | sb
      · rfl
      · exact updateElement_absent store id _ ha
    · simp only
      rcases hh : ts.activeHandle with _ | handle
      · rfl
      · rcases hsel : store.selectedElementIds with _ | ⟨selectedId, rest⟩
        · simp
        · have ha : mapLookup store.elements selectedId = none := by
            apply habs
            rw [hsel]
            exact List.mem_cons_self selectedId rest
          simp only [List.head?_cons]
          rcases hb : lookupBounds ts.elementStartBounds selectedId with _ | sb
          · rfl
          · exact congrArg (fun st => (ts, st))
              (updateElement_absent store selectedId _ ha)
    · simp only
      rcases hsel : store.selectedElementIds with _ | ⟨selectedId, rest⟩
      · simp
      · have ha : mapLookup store.elements selectedId = none := by
          apply habs
          rw [hsel]
          exact List.mem_cons_self selectedId rest
        simp only [List.head?_cons]
        rw [ha]
  · intro ts store shift
    refine ⟨rfl, rfl, rfl, rfl, rfl⟩

/-- Witness for C4 (amended) on the concrete mid-gesture state with the
transformed element deleted. -/
theorem claim4_witness :
    (ts4.transformMode = some TMode.resize ∧
     ts4.dragStartPoint = some { x := 0, y := 0 } ∧
     (∀ id, id ∈ st4.selectedElementIds → mapLookup st4.elements id = none) ∧
     onPointerMove trig0 ts4 st4 10 10 DEFAULT_VIEWPORT false = (ts4, st4)) ∧
    (onPointerUp ts4 st4 false).1.transformMode = none :=
  ⟨⟨rfl, rfl,
    fun id hid => by
      have : id = "a" := by
        simpa [st4, initialState] using hid
      subst this
      rfl,
    claim4_gesture_abort.1 trig0 ts4 st4 10 10 DEFAULT_VIEWPORT false
      TMode.resize { x := 0, y := 0 } rfl (Or.inr (Or.inl rfl)) rfl
      (fun id hid => by
        have : id = "a" := by
          simpa [st4, initialState] using hid
        subst this
        rfl)⟩,
   (claim4_gesture_abort.2 ts4 st4 false).1⟩

/-- Helper: `jsIndexOf` never returns less than -1. -/
lemma jsIndexOf_ge (l : List String) (x : String) : -1 ≤ jsIndexOf l x := by
  induction l with
  | nil => simp [jsIndexOf]
  | cons a t ih =>
    simp only [jsIndexOf]
    split_ifs with h1 h2
    · omega
    · omega
    · omega

/-- Helper: `jsIndexOf` returns -1 exactly on a miss. -/
lemma jsIndexOf_eq_neg_one_iff (l : List String) (x : String) :
    jsIndexOf l x = -1 ↔ x ∉ l := by
  induction l with
  | nil => simp [jsIndexOf]
  | cons a t ih =>
    simp only [jsIndexOf, List.mem_cons]
    split_ifs with h1 h2
    · constructor
      · intro h0; exact absurd h0 (by decide)
      · intro h; exact absurd (Or.inl h1.symm) h
    · refine ⟨fun _ => ?_, fun _ => rfl⟩
      rintro (rfl | hx)
      · exact h1 rfl
      · exact (ih.mp h2) hx
    · constructor
      · intro h0
        have := jsIndexOf_ge t x
        omega
      · intro h
        exfalso
        apply h
        right
        by_contra hxt
        exact h2 (ih.mpr hxt)

/-- Helper: `jsIndexOf` is always below the length. -/
lemma jsIndexOf_lt_length (l : List String) (x : String) :
    jsIndexOf l x < (l.length : Int) := by
  induction l with
  | nil => simp [jsIndexOf]
  | cons a t ih =>
    simp only [jsIndexOf, List.length_cons]
    split_ifs with h1 h2
    · push_cast; omega
    · push_cast; omega
    · push_cast; push_cast at ih; omega

/-- Helper: the JS destructuring swap of two adjacent slots is a
permutation. -/
lemma set_swap_perm (d : String) : ∀ (l : List String) (i : Nat),
    i + 1 < l.length →
    ((l.set i (l.getD (i + 1) d)).set (i + 1) (l.getD i d)).Perm l := by
  intro l
  induction l with
  | nil => intro i h; simp at h
  | cons a t ih =>
    intro i h
    cases i with
    | zero =>
      cases t with
      | nil => simp at h
      | cons b t2 =>
        show (b :: a :: t2).Perm (a :: b :: t2)
        exact List.Perm.swap a b t2
    | succ j =>
      have hj : j + 1 < t.length := Nat.lt_of_succ_lt_succ h
      show (a :: ((t.set j (t.getD (j + 1) d)).set (j + 1) (t.getD j d))).Perm (a :: t)
      exact List.Perm.cons a (ih j hj)

/-- Helper: a key with no entry is not in the key list. -/
lemma not_mem_mapKeys_of_lookup_none (m : List (String × Element)) (k : String)
    (h : mapLookup m k = none) : k ∉ mapKeys m := by
  rw [mapLookup_none_iff] at h
  intro hk
  obtain ⟨p, hp, hpk⟩ := List.mem_map.mp hk
  exact h p hp hpk

/-- Helper: `mapSet` with a fresh key appends the key. -/
lemma mapKeys_mapSet_of_absent (m : List (String × Element)) (k : String)
    (v : Element) (h : mapLookup m k = none) :
    mapKeys (mapSet m k v) = mapKeys m ++ [k] := by
  have hany : m.any (fun p => p.1 = k) = false := by
    rw [List.any_eq_false]
    intro p hp
    simpa using (mapLookup_none_iff m k).mp h p hp
  unfold mapSet
  rw [if_neg (by rw [hany]; exact Bool.false_ne_true)]
  simp [mapKeys]

/-- Helper: key membership after a single deletion. -/
lemma mem_mapKeys_mapDelete (m : List (String × Element)) (id0 x : String) :
    x ∈ mapKeys (mapDelete m id0) ↔ x ∈ mapKeys m ∧ x ≠ id0 := by
  simp only [mapKeys, mapDelete, List.mem_map, List.mem_filter,
    decide_eq_true_eq]
  constructor
  · rintro ⟨p, ⟨hpm, hpk⟩, rfl⟩
    exact ⟨⟨p, hpm, rfl⟩, hpk⟩
  · rintro ⟨⟨p, hpm, rfl⟩, hne⟩
    exact ⟨p, ⟨hpm, hne⟩, rfl⟩

/-- Helper: key membership after a fold of deletions. -/
lemma mem_mapKeys_foldl_mapDelete (ids : List String)
    (m : List (String × Element)) (x : String) :
    x ∈ mapKeys (ids.foldl mapDelete m) ↔ x ∈ mapKeys m ∧ x ∉ ids := by
  induction ids generalizing m with
  | nil => simp
  | cons a t ih =>
    simp only [List.foldl_cons, ih (mapDelete m a), mem_mapKeys_mapDelete,
      List.mem_cons, not_or]
    tauto

/-- The z-order integrity invariant: the z-order list is duplicate-free and
lists exactly the keys of the element map. -/
def OrderInv (s : StoreState) : Prop :=
  s.elementOrder.Nodup ∧
  ∀ id, id ∈ s.elementOrder ↔ id ∈ mapKeys s.elements

/-- Helper: a fresh `addElement` preserves the invariant. -/
lemma inv_addElement (s : StoreState) (e : Element) (h : OrderInv s)
    (hfresh : mapLookup s.elements e.id = none) :
    OrderInv (addElement s e) := by
  obtain ⟨hnd, hmem⟩ := h
  have hknot : e.id ∉ mapKeys s.elements :=
    not_mem_mapKeys_of_lookup_none s.elements e.id hfresh
  have honot : e.id ∉ s.elementOrder := fun hx => hknot ((hmem e.id).mp hx)
  constructor
  · simp only [addElement]
    rw [List.nodup_append]
    refine ⟨hnd, List.nodup_singleton e.id, ?_⟩
    intro x hx hx1
    rw [List.mem_singleton] at hx1
    subst hx1
    exact honot hx
  · intro id
    simp only [addElement]
    rw [mapKeys_mapSet_of_absent s.elements e.id e hfresh]
    simp only [List.mem_append, List.mem_singleton]
    exact or_congr (hmem id) Iff.rfl

/-- Helper: `deleteElement` preserves the invariant. -/
lemma inv_deleteElement (s : StoreState) (id0 : String) (h : OrderInv s) :
    OrderInv (deleteElement s id0) := by
  obtain ⟨hnd, hmem⟩ := h
  constructor
  · exact List.Nodup.filter _ hnd
  · intro id
    simp only [deleteElement, List.mem_filter, decide_eq_true_eq,
      mem_mapKeys_mapDelete]
    exact and_congr (hmem id) Iff.rfl

/-- Helper: `deleteElements` preserves the invariant. -/
lemma inv_deleteElements (s : StoreState) (ids : List String) (h : OrderInv s) :
    OrderInv (deleteElements s ids) := by
  obtain ⟨hnd, hmem⟩ := h
  have hcont : ∀ x : String, ((!(ids.contains x)) = true) ↔ x ∉ ids := by
    intro x
    by_cases hx : x ∈ ids
    · have hc : ids.contains x = true := by
        rw [show ids.contains x = ids.elem x from rfl]
        exact List.elem_iff.mpr hx
      rw [hc]
      simp [hx]
    · have hc : ids.contains x = false := by
        rw [show ids.contains x = ids.elem x from rfl]
        rw [Bool.eq_false_iff]
        intro ht
        exact hx (List.elem_iff.mp ht)
      rw [hc]
      simp [hx]
  constructor
  · exact List.Nodup.filter _ hnd
  · intro id
    simp only [deleteElements, List.mem_filter,
      mem_mapKeys_foldl_mapDelete]
    rw [hcont id]
    exact and_congr (hmem id) Iff.rfl

/-- Helper: `bringToFront` preserves the invariant. -/
lemma inv_bringToFront (s : StoreState) (id0 : String) (h : OrderInv s) :
    OrderInv (bringToFront s id0) := by
  obtain ⟨hnd, hmem⟩ := h
  simp only [bringToFront]
  split_ifs with hg
  · exact ⟨hnd, hmem⟩
  · push_neg at hg
    have hmem0 : id0 ∈ s.elementOrder := by
      by_contra hno
      exact hg.1 ((jsIndexOf_eq_neg_one_iff s.elementOrder id0).mpr hno)
    constructor
    · simp only
      rw [List.nodup_append]
      refine ⟨List.Nodup.filter _ hnd, List.nodup_singleton id0, ?_⟩
      intro x hx hx1
      rw [List.mem_singleton] at hx1
      subst hx1
      simp only [List.mem_filter, decide_eq_true_eq] at hx
      exact hx.2 rfl
    · intro id
      simp only [List.mem_append, List.mem_filter, List.mem_singleton,
        decide_eq_true_eq]
      by_cases hid : id = id0
      · subst hid
        simp only [or_true, true_iff]
        exact (hmem id).mp hmem0
      · simp only [hid, or_false, and_iff_left hid]
        exact hmem id

/-- Helper: `sendToBack` preserves the invariant. -/
lemma inv_sendToBack (s : StoreState) (id0 : String) (h : OrderInv s) :
    OrderInv (sendToBack s id0) := by
  obtain ⟨hnd, hmem⟩ := h
  simp only [sendToBack]
  split_ifs with hg
  · exact ⟨hnd, hmem⟩
  · push_neg at hg
    have hmem0 : id0 ∈ s.elementOrder := by
      by_contra hno
      exact hg.1 ((jsIndexOf_eq_neg_one_iff s.elementOrder id0).mpr hno)
    constructor
    · simp only
      rw [List.nodup_cons]
      refine ⟨?_, List.Nodup.filter _ hnd⟩
      intro hx
      simp only [List.mem_filter, decide_eq_true_eq] at hx
      exact hx.2 rfl
    · intro id
      simp only [List.mem_cons, List.mem_filter, decide_eq_true_eq]
      by_cases hid : id = id0
      · subst hid
        simp only [true_or, true_iff]
        exact (hmem id).mp hmem0
      · simp only [hid, false_or, and_iff_left hid]
        exact hmem id

/-- Helper: the adjacent-swap z-order of `bringForward` is a permutation of
the original order. -/
lemma inv_bringForward (s : StoreState) (id0 : String) (h : OrderInv s) :
    OrderInv (bringForward s id0) := by
  obtain ⟨hnd, hmem⟩ := h
  simp only [bringForward]
  split_ifs with hg
  · exact ⟨hnd, hmem⟩
  · push_neg at hg
    have h1 : -1 ≤ jsIndexOf s.elementOrder id0 := jsIndexOf_ge _ _
    have h2 : jsIndexOf s.elementOrder id0 < (s.elementOrder.length : Int) :=
      jsIndexOf_lt_length _ _
    have h0 : 0 ≤ jsIndexOf s.elementOrder id0 := by
      rcases hg with ⟨hg1, _⟩
      omega
    have hcast : ((jsIndexOf s.elementOrder id0).toNat : Int) =
        jsIndexOf s.elementOrder id0 := Int.toNat_of_nonneg h0
    have hlt : (jsIndexOf s.elementOrder id0).toNat + 1 <
        s.elementOrder.length := by
      rcases hg with ⟨_, hg2⟩
      omega
    have hperm := set_swap_perm "" s.elementOrder
      (jsIndexOf s.elementOrder id0).toNat hlt
    exact ⟨hperm.nodup_iff.mpr hnd,
      fun id => hperm.mem_iff.trans (hmem id)⟩

/-- Helper: the adjacent-swap z-order of `sendBackward` is a permutation of
the original order. -/
lemma inv_sendBackward (s : StoreState) (id0 : String) (h : OrderInv s) :
    OrderInv (sendBackward s id0) := by
  obtain ⟨hnd, hmem⟩ := h
  simp only [sendBackward]
  split_ifs with hg
  · exact ⟨hnd, hmem⟩
  · push_neg at hg
    have h1 : -1 ≤ jsIndexOf s.elementOrder id0 := jsIndexOf_ge _ _
    have h2 : jsIndexOf s.elementOrder id0 < (s.elementOrder.length : Int) :=
      jsIndexOf_lt_length _ _
    have h0 : 0 ≤ jsIndexOf s.elementOrder id0 := by
      rcases hg with ⟨hg1, _⟩
      omega
    have hpos : 1 ≤ (jsIndexOf s.elementOrder id0).toNat := by
      rcases hg with ⟨_, hg2⟩
      omega
    have hlen : (jsIndexOf s.elementOrder id0).toNat < s.elementOrder.length := by
      omega
    have hperm :
        ((s.elementOrder.set (jsIndexOf s.elementOrder id0).toNat
            (s.elementOrder.getD ((jsIndexOf s.elementOrder id0).toNat - 1) "")).set
          ((jsIndexOf s.elementOrder id0).toNat - 1)
          (s.elementOrder.getD (jsIndexOf s.elementOrder id0).toNat "")).Perm
          s.elementOrder := by
      rw [List.set_comm _ _ s.elementOrder (by omega)]
      obtain ⟨j, hj⟩ : ∃ j, (jsIndexOf s.elementOrder id0).toNat = j + 1 :=
        ⟨(jsIndexOf s.elementOrder id0).toNat - 1, by omega⟩
      rw [hj]
      simp only [Nat.add_sub_cancel]
      exact set_swap_perm "" s.elementOrder j (by omega)
    exact ⟨hperm.nodup_iff.mpr hnd,
      fun id => hperm.mem_iff.trans (hmem id)⟩

/-- Helper: every operation of a fresh sequence preserves the invariant. -/
lemma inv_applyOps : ∀ (ops : List StoreOp) (s : StoreState),
    OrderInv s → freshOps s ops = true → OrderInv (applyOps s ops) := by
  intro ops
  induction ops with
  | nil => intro s h _; exact h
  | cons op rest ih =>
    intro s h hf
    simp only [freshOps, Bool.and_eq_true] at hf
    have hnext : OrderInv (applyOp s op) := by
      cases op with
      | addElement e =>
          exact inv_addElement s e h
            (by simpa [Option.isNone_iff_eq_none] using hf.1)
      | deleteElement id => exact inv_deleteElement s id h
      | deleteElements ids => exact inv_deleteElements s ids h
      | bringToFront id => exact inv_bringToFront s id h
      | sendToBack id => exact inv_sendToBack s id h
      | bringForward id => exact inv_bringForward s id h
      | sendBackward id => exact inv_sendBackward s id h
    exact ih (applyOp s op) hnext hf.2

/-- Second element for the C2 witness. -/
def eltB : Element := { eltA with id := "b" }

/-- Counterexample for C2 as stated: adding the same id twice (the store
does not guard against reused ids) duplicates it in the z-order list, so
over arbitrary operation sequences the z-order list is NOT duplicate-free. -/
theorem claim2_counterexample :
    (applyOps initialState [StoreOp.addElement eltA, StoreOp.addElement eltA]).elementOrder =
      ["a", "a"] ∧
    ¬ (applyOps initialState
        [StoreOp.addElement eltA, StoreOp.addElement eltA]).elementOrder.Nodup := by
  constructor
  · rfl
  · intro h
    rw [show (applyOps initialState
        [StoreOp.addElement eltA, StoreOp.addElement eltA]).elementOrder =
        ["a", "a"] from rfl] at h
    simp at h

/-- C2 (amended): for every sequence of store operations in which each
`addElement` uses an id not already present in the element map (ids from the
element factory are fresh), the resulting z-order list has no duplicates and
its membership coincides with the key set of the element map. -/
theorem claim2_zorder_integrity (ops : List StoreOp)
    (h : freshOps initialState ops = true) :
    (applyOps initialState ops).elementOrder.Nodup ∧
    ∀ id, id ∈ (applyOps initialState ops).elementOrder ↔
      id ∈ mapKeys (applyOps initialState ops).elements :=
  inv_applyOps ops initialState
    ⟨List.nodup_nil, by simp [initialState, mapKeys]⟩ h

/-- Concrete fresh operation sequence for the C2 witness. -/
def ops2 : List StoreOp :=
  [ StoreOp.addElement eltA
  , StoreOp.addElement eltB
  , StoreOp.bringToFront "a"
  , StoreOp.sendBackward "a"
  , StoreOp.deleteElement "b" ]

/-- Witness for C2 (amended) on a concrete fresh sequence. -/
theorem claim2_witness :
    freshOps initialState ops2 = true ∧
    ((applyOps initialState ops2).elementOrder.Nodup ∧
     ∀ id, id ∈ (applyOps initialState ops2).elementOrder ↔
       id ∈ mapKeys (applyOps initialState ops2).elements) :=
  ⟨by decide, claim2_zorder_integrity ops2 (by decide)⟩
